import Mathlib

/-!
# Verification of the timetravel workflow engine

A shallow embedding of the configuration-driven workflow engine: the session
document store (`sessionService`), the agent registry (`agents.config`), the
generic agent executor (`agentExecutor`), the prompt template renderer
(`prompts.config`) and the make-choice HTTP route.

Sessions are JSON documents on disk; the TypeScript types are erased at
runtime, so the faithful model of a session is a JSON-like value tree
(`JValue`) together with the JavaScript runtime semantics the code relies on:
truthiness, property access, strict-mode property assignment (a `TypeError`
on primitives), the `||` and `?.` operators, and numeric comparison.

Modelling scope, recorded once here instead of at every definition:
* wall-clock reads (`new Date()`, `Date.now()`) and `Math.random()` are passed
  in as explicit parameters, since the code only forwards their values;
* numeric JSON values are modelled as integers (the code only stores and
  compares counters and ages; no claim involves fractional numbers);
* implicit string-to-number coercion inside `>=`/`<`, prototype-chain
  properties (`"toString" in obj`), and expando properties on arrays are
  outside the modelled fragment: no theorem below relies on those corners,
  and every concrete input used in a witness or counterexample stays inside
  the modelled fragment;
* `console.log` calls are ignored.
-/

namespace Timetravel

/-! ## JSON-like runtime values -/

/-- A JavaScript runtime value as it can occur in a parsed session document:
`undefined` is the absent-marker `undefined`, distinct from JSON `null`.
Objects are insertion-ordered association lists with unique keys, matching
JavaScript object property order. -/
inductive JValue where
  | undefined
  | null
  | bool (b : Bool)
  | num (n : Int)
  | str (s : String)
  | arr (elems : List JValue)
  | obj (fields : List (String × JValue))

/-- Look up a key in an object's field list (first occurrence). -/
def recordGet {α : Type} : List (String × α) → String → Option α
  | [], _ => none
  | (k', v) :: rest, k => if k' = k then some v else recordGet rest k

/-- Set a key in an insertion-ordered record: replace the first occurrence in
place, or append at the end — JavaScript property-assignment order. -/
def recordSet {α : Type} : List (String × α) → String → α → List (String × α)
  | [], k, v => [(k, v)]
  | (k', v') :: rest, k, v =>
      if k' = k then (k, v) :: rest else (k', v') :: recordSet rest k v

/-- Canonical array-index parse: a string of digits without leading zeros
(`"0"`, `"1"`, `"42"`, …). -/
def parseIndex (s : String) : Option Nat :=
  let cs := s.toList
  if cs = [] then none
  else if cs.all (fun c => c.isDigit) then
    if cs.headD '0' = '0' ∧ cs ≠ ['0'] then none
    else some (cs.foldl (fun n c => n * 10 + (c.toNat - 48)) 0)
  else none

/-- JavaScript property read `v[k]`, total: reading a missing property, or any
property of a primitive other than `length`, yields `undefined`.  Reading a
property of `undefined`/`null` throws in JavaScript; callers that can throw go
through `propGet` instead, and `jIndex` returns `undefined` there. -/
def jIndex : JValue → String → JValue
  | .obj fields, k => (recordGet fields k).getD .undefined
  | .arr xs, k =>
      if k = "length" then .num xs.length
      else match parseIndex k with
        | some i => (xs.get? i).getD .undefined
        | none => .undefined
  | .str s, k => if k = "length" then .num s.length else .undefined
  | _, _ => .undefined

/-- JavaScript property read that throws a `TypeError` when the base value is
`undefined` or `null` (`cannot read properties of undefined`). -/
def propGet (v : JValue) (k : String) : Except String JValue :=
  match v with
  | .undefined => .error ("TypeError: cannot read properties of undefined (reading " ++ k ++ ")")
  | .null => .error ("TypeError: cannot read properties of null (reading " ++ k ++ ")")
  | _ => .ok (jIndex v k)

/-- JavaScript truthiness: `undefined`, `null`, `false`, `0` and `""` are
falsy; every other value (including `[]` and `{}`) is truthy. -/
def truthy : JValue → Bool
  | .undefined => false
  | .null => false
  | .bool b => b
  | .num n => n != 0
  | .str s => s ≠ ""
  | .arr _ => true
  | .obj _ => true

/-- The JavaScript `a || b` operator. -/
def jsOr (a b : JValue) : JValue := if truthy a then a else b

/-- The JavaScript `a ?? b` operator (nullish coalescing). -/
def jsNullish (a b : JValue) : JValue :=
  match a with
  | .undefined => b
  | .null => b
  | _ => a

/-- Optional chaining `v?.k`: `undefined` when the base is nullish, otherwise
a plain property read. -/
def optChainIndex (v : JValue) (k : String) : JValue :=
  match v with
  | .undefined => .undefined
  | .null => .undefined
  | _ => jIndex v k

/-- `ToNumber` on the modelled fragment: `null ↦ 0`, booleans to `0`/`1`,
numbers to themselves; everything else (including `undefined`, whose image is
`NaN`) has no numeric value. -/
def jsToNum : JValue → Option Int
  | .null => some 0
  | .bool b => some (if b then 1 else 0)
  | .num n => some n
  | _ => none

/-- JavaScript `a >= b` on the modelled numeric fragment; comparisons against
`NaN` are false. -/
def jsGe (a b : JValue) : Bool :=
  match jsToNum a, jsToNum b with
  | some x, some y => x ≥ y
  | _, _ => false

/-- JavaScript `a > b` on the modelled numeric fragment. -/
def jsGt (a b : JValue) : Bool :=
  match jsToNum a, jsToNum b with
  | some x, some y => x > y
  | _, _ => false

/-- JavaScript `a < b` on the modelled numeric fragment. -/
def jsLt (a b : JValue) : Bool :=
  match jsToNum a, jsToNum b with
  | some x, some y => x < y
  | _, _ => false

/-- `v === undefined` as a boolean. -/
def isUndefined : JValue → Bool
  | .undefined => true
  | _ => false

/-- `v === undefined || v === null` as a boolean. -/
def isNullish : JValue → Bool
  | .undefined => true
  | .null => true
  | _ => false

/-- Whether the value is a plain object. -/
def isObj : JValue → Bool
  | .obj _ => true
  | _ => false

/-- `Array.isArray`. -/
def isArray : JValue → Bool
  | .arr _ => true
  | _ => false

mutual

/-- The JavaScript `String(v)` coercion on the modelled fragment:
`"undefined"`, `"null"`, booleans and integers in decimal, strings unchanged,
arrays joined by commas with nullish elements blank, plain objects as
`"[object Object]"`. -/
def jsDisplay : JValue → String
  | .undefined => "undefined"
  | .null => "null"
  | .bool b => if b then "true" else "false"
  | .num n => toString n
  | .str s => s
  | .arr xs => String.intercalate "," (jsDisplayElems xs)
  | .obj _ => "[object Object]"

/-- `Array.prototype.toString` renders each element, nullish elements as the
empty string. -/
def jsDisplayElems : List JValue → List String
  | [] => []
  | v :: rest =>
      (match v with
       | .undefined => ""
       | .null => ""
       | other => jsDisplay other) :: jsDisplayElems rest

end

/-- `arr[arr.length - 1]` after the code has already guarded the base value:
the last element of an array, `undefined` for an empty array or a non-array
(whose computed index is `NaN`). -/
def jsLastElem : JValue → JValue
  | .arr xs => (xs.getLast?).getD .undefined
  | _ => .undefined

/-! ## Dotted paths

`path.split('.')` always yields at least one segment (`"".split('.')` is
`[""]`). -/

/-- Split a character list at dots; total, never empty. -/
def splitDots : List Char → List (List Char)
  | [] => [[]]
  | c :: rest =>
      let tail := splitDots rest
      if c = '.' then [] :: tail
      else match tail with
        | [] => [[c]]
        | seg :: segs => (c :: seg) :: segs

/-- `path.split('.')` as strings. -/
def splitPath (path : String) : List String :=
  (splitDots path.toList).map List.asString

/-! ## Session document store (`sessionService.ts`)

The store keeps one JSON document per session id (the live session-folder
layout `sessions/<id>/session.json`, with a legacy flat-file fallback on
read); it is modelled as an insertion-ordered association list from id to
document, which covers both layouts.  Mutators of a single document are
modelled document-to-document; the store-level wrappers perform the
read-modify-write round trip. -/

/-- `getNestedValue(obj, path)`: walk the dot-separated keys, returning
`undefined` as soon as an intermediate value is `undefined` or `null`; never
throws. -/
def getNestedGo : List String → JValue → JValue
  | [], v => v
  | k :: ks, v => if isNullish v then .undefined else getNestedGo ks (jIndex v k)

/-- `getNestedValue` from `sessionService.ts`. -/
def getNestedValue (o : JValue) (path : String) : JValue :=
  getNestedGo (splitPath path) o

/-- Strict-mode property assignment `base[k] = v`: updates a plain object,
updates or extends an array at a canonical index (holes become `undefined`),
and throws a `TypeError` on every primitive base (ES modules are strict).
Non-index properties of arrays (expandos) are outside the modelled fragment
and also reported as errors; no theorem below touches that corner. -/
def setProp (base : JValue) (k : String) (v : JValue) : Except String JValue :=
  match base with
  | .obj fields => .ok (.obj (recordSet fields k v))
  | .arr xs =>
      (match parseIndex k with
       | some i =>
          if i < xs.length then .ok (.arr (xs.set i v))
          else .ok (.arr (xs ++ List.replicate (i - xs.length) .undefined ++ [v]))
       | none => .error "TypeError: unmodelled array property assignment")
  | _ => .error "TypeError: cannot create property on a primitive value"

/-- The JavaScript `k in base` operator: own properties of objects, indices
and `length` for arrays; throws a `TypeError` on any primitive base. -/
def hasProp (base : JValue) (k : String) : Except String Bool :=
  match base with
  | .obj fields => .ok ((recordGet fields k).isSome)
  | .arr xs =>
      .ok (k = "length" || (match parseIndex k with
            | some i => decide (i < xs.length)
            | none => false))
  | _ => .error "TypeError: cannot use in operator on a primitive value"

/-- The recursive walk of `setNestedValue`: for every key but the last,
`if (!(key in current)) current[key] = {}` then descend; assign at the last
key.  The in-place mutation of the source is rendered by rebuilding the
spine on the way out. -/
def setNestedGo (cur : JValue) : List String → JValue → Except String JValue
  | [], _ => .ok cur
  | [k], v => setProp cur k v
  | k :: k' :: ks, v =>
      match hasProp cur k with
      | .error e => .error e
      | .ok has =>
        let child := if has then jIndex cur k else .obj []
        match setNestedGo child (k' :: ks) v with
        | .error e => .error e
        | .ok child' => setProp cur k child'

/-- `setNestedValue` from `sessionService.ts`, creating intermediate objects
as needed; fails with a `TypeError` when the walk or the final assignment
hits a primitive. -/
def setNestedValue (o : JValue) (path : String) (v : JValue) : Except String JValue :=
  setNestedGo o (splitPath path) v

/-- The shape of a declared agent input field (`AgentInputField` without the
documentation string, which no operation reads). -/
structure AgentInputField where
  field : String
  required : Bool

/-- `getAgentInput(sessionId, inputFields)`: resolve each declared field by
dotted path; throw on the first required field whose value is absent; skip
optional absent fields; collect the rest keyed by their full path. -/
def getAgentInputGo (session : JValue) :
    List AgentInputField → List (String × JValue) → Except String (List (String × JValue))
  | [], acc => .ok acc
  | f :: rest, acc =>
      let value := getNestedValue session f.field
      if f.required ∧ isUndefined value then
        .error ("Required input field missing: " ++ f.field)
      else
        getAgentInputGo session rest
          (if isUndefined value then acc else recordSet acc f.field value)

/-- `getAgentInput` from `sessionService.ts` (acting on the already-read
session document). -/
def getAgentInput (session : JValue) (inputFields : List AgentInputField) :
    Except String (List (String × JValue)) :=
  getAgentInputGo session inputFields []

/-- The array-field allow-list hard-coded in the live `writeAgentOutput`
(the session-folder version of the session service, which every image
service variant depends on through `getImageFilePath`), in source order. -/
def appendAllowList : List String :=
  ["lifelines", "pivotalMoments", "images", "imagePrompts", "choices"]

/-- `writeAgentOutput(sessionId, outputField, output)` from the live session
service: fields on the allow-list get append semantics (initialising a
non-array to `[]` first); every other field is written with
`setNestedValue` set semantics. -/
def writeAgentOutput (session : JValue) (outputField : String) (output : JValue) :
    Except String JValue :=
  if outputField ∈ appendAllowList then
    match session with
    | .obj fields =>
        let base := match jIndex session outputField with
          | .arr xs => xs
          | _ => []
        .ok (.obj (recordSet fields outputField (.arr (base ++ [output]))))
    | _ => .error "TypeError: cannot create property on a primitive value"
  else
    setNestedValue session outputField output

/-- `addExecutionLog(sessionId, log)` on the session document:
`executionLogs.push(log)` then `metadata.totalSteps = executionLogs.length`.
Throws a `TypeError` when `executionLogs` is not an array or `metadata` is
not an object. -/
def addExecutionLog (session : JValue) (log : JValue) : Except String JValue :=
  match session with
  | .obj fields =>
      (match recordGet fields "executionLogs" with
       | some (.arr xs) =>
          let fields1 := recordSet fields "executionLogs" (.arr (xs ++ [log]))
          (match recordGet fields1 "metadata" with
           | some (.obj mf) =>
              .ok (.obj (recordSet fields1 "metadata"
                (.obj (recordSet mf "totalSteps" (.num (xs ++ [log]).length)))))
           | _ => .error "TypeError: cannot set totalSteps on a non-object metadata")
       | _ => .error "TypeError: push is not a function")
  | _ => .error "TypeError: cannot read executionLogs of a primitive session"

/-- `addUserChoice(sessionId, choice)` on the session document:
`choices.push(choice)`. -/
def addUserChoiceDoc (session : JValue) (choice : JValue) : Except String JValue :=
  match session with
  | .obj fields =>
      (match recordGet fields "choices" with
       | some (.arr xs) =>
          .ok (.obj (recordSet fields "choices" (.arr (xs ++ [choice]))))
       | _ => .error "TypeError: push is not a function")
  | _ => .error "TypeError: cannot read choices of a primitive session"

/-- `updateSessionMetadata(sessionId, updates)` on the session document:
`session.metadata = { ...session.metadata, ...updates }`.  Spreading a
non-object contributes no fields; assigning onto a primitive session throws. -/
def updateSessionMetadataDoc (session : JValue) (updates : List (String × JValue)) :
    Except String JValue :=
  match session with
  | .obj fields =>
      let base := match recordGet fields "metadata" with
        | some (.obj mf) => mf
        | _ => []
      .ok (.obj (recordSet fields "metadata"
        (.obj (updates.foldl (fun acc kv => recordSet acc kv.1 kv.2) base))))
  | _ => .error "TypeError: cannot set metadata on a primitive session"

/-- `createEmptySession(sessionId, input, config)` from `session.types.ts`;
`new Date().toISOString()` is the `nowIso` parameter.  The config defaults
use the source's `||` and `??` operators. -/
def createEmptySession (sessionId : String) (input : JValue) (config : JValue)
    (nowIso : String) : JValue :=
  .obj [
    ("metadata", .obj [
      ("sessionId", .str sessionId),
      ("startTime", .str nowIso),
      ("currentStep", .str "initialization"),
      ("status", .str "active"),
      ("totalSteps", .num 0)]),
    ("input", input),
    ("config", .obj [
      ("numberOfPersonaOptions", jsOr (jIndex config "numberOfPersonaOptions") (.num 4)),
      ("maxPivotalMoments", jsOr (jIndex config "maxPivotalMoments") (.num 5)),
      ("generateImages", jsNullish (jIndex config "generateImages") (.bool false))]),
    ("lifelines", .arr []),
    ("pivotalMoments", .arr []),
    ("choices", .arr []),
    ("imagePrompts", .arr []),
    ("images", .arr []),
    ("executionLogs", .arr []),
    ("gameState", .obj [("isAlive", .bool true)])]

/-- The wall-clock fields `generateSessionId` reads from `new Date()`;
`monthIndex` is the zero-based `getMonth()`. -/
structure Clock where
  year : Nat
  monthIndex : Nat
  day : Nat
  hour : Nat
  minute : Nat
  second : Nat

/-- `String(n).padStart(2, '0')`. -/
def pad2 (n : Nat) : String :=
  if n < 10 then "0" ++ toString n else toString n

/-- `generateSessionId()`: `session-YYYYMMDD-HHMMSS` from the current time. -/
def generateSessionId (c : Clock) : String :=
  "session-" ++ toString c.year ++ pad2 (c.monthIndex + 1) ++ pad2 c.day ++
    "-" ++ pad2 c.hour ++ pad2 c.minute ++ pad2 c.second

/-- The on-disk store: one JSON document per session id. -/
def Store := List (String × JValue)

/-- `readSession(sessionId)`: parse `sessions/<id>.json`, or throw when the
file does not exist. -/
def readSession (store : Store) (sessionId : String) : Except String JValue :=
  match recordGet store sessionId with
  | some s => .ok s
  | none => .error ("Session file not found: " ++ sessionId)

/-- `writeSession(sessionId, session)`: unconditional full-document overwrite
(`fs.writeFileSync`). -/
def writeSession (store : Store) (sessionId : String) (session : JValue) : Store :=
  recordSet store sessionId session

/-- `createSession(input, config)`: generate a timestamped id, build the
empty session and write it — with no check whether the id already exists. -/
def createSession (store : Store) (c : Clock) (nowIso : String)
    (input : JValue) (config : JValue) : (String × JValue) × Store :=
  let sessionId := generateSessionId c
  let session := createEmptySession sessionId input config nowIso
  ((sessionId, session), writeSession store sessionId session)

/-- Store-level `addUserChoice`: read, push, write. -/
def addUserChoice (store : Store) (sessionId : String) (choice : JValue) :
    Except String Store := do
  let session ← readSession store sessionId
  let session' ← addUserChoiceDoc session choice
  pure (writeSession store sessionId session')

/-- Store-level `updateSessionMetadata`: read, merge, write. -/
def updateSessionMetadata (store : Store) (sessionId : String)
    (updates : List (String × JValue)) : Except String Store := do
  let session ← readSession store sessionId
  let session' ← updateSessionMetadataDoc session updates
  pure (writeSession store sessionId session')

/-! ## Agent registry (`agents.config.ts`) -/

/-- The six agent identifiers. -/
inductive AgentType where
  | historicalContext
  | personaGeneration
  | lifelineGeneration
  | pivotalMomentGeneration
  | imagePromptGeneration
  | imageGeneration
deriving DecidableEq

/-- A branching-rule condition (`NextAgentRule.condition`, an optional
field in the source). -/
inductive RuleCondition where
  | always
  | userSelection
  | endCondition
  | custom
deriving DecidableEq

/-- A `NextAgentRule`: optional condition, optional target
(`undefined` means end of workflow); the description is not read by any
operation and is elided. -/
structure NextAgentRule where
  condition : Option RuleCondition
  nextAgentId : Option AgentType

/-- An `AgentConfig` projected to the fields the verified operations consume.
The prompt texts and model parameters are opaque payloads forwarded to the
generation backend: `systemPrompt` and `userPromptTemplate` are kept as
fields because the executor passes them on, but the hundreds of lines of
prompt copy in the source are elided (set to `""` in the concrete registry),
and `modelConfig`, `name` aside, no verified operation reads them. -/
structure AgentConfig where
  id : String
  type : AgentType
  name : String
  systemPrompt : String
  userPromptTemplate : String
  inputFields : List AgentInputField
  outputField : String
  nextAgentRules : List NextAgentRule
  repeatable : Bool
  requiresUserInput : Bool := false

/-- The `AGENTS` registry record, one config per agent id.  Input fields,
output fields, rules and flags are transcribed from `agents.config.ts`;
prompt texts are elided as described on `AgentConfig`. -/
def AGENTS : AgentType → AgentConfig
  | .historicalContext =>
    { id := "historicalContext"
      type := .historicalContext
      name := "Historical Context Agent"
      systemPrompt := ""
      userPromptTemplate := ""
      inputFields := [
        { field := "input.date", required := true },
        { field := "input.location", required := true }]
      outputField := "historicalContext"
      nextAgentRules := [
        { condition := some .always, nextAgentId := some .personaGeneration }]
      repeatable := false }
  | .personaGeneration =>
    { id := "personaGeneration"
      type := .personaGeneration
      name := "Persona Generation Agent"
      systemPrompt := ""
      userPromptTemplate := ""
      inputFields := [
        { field := "historicalContext", required := true },
        { field := "config.numberOfPersonaOptions", required := false }]
      outputField := "personaOptions"
      nextAgentRules := [
        { condition := some .userSelection, nextAgentId := some .lifelineGeneration }]
      repeatable := false
      requiresUserInput := true }
  | .lifelineGeneration =>
    { id := "lifelineGeneration"
      type := .lifelineGeneration
      name := "Lifeline Generation Agent"
      systemPrompt := ""
      userPromptTemplate := ""
      inputFields := [
        { field := "historicalContext", required := true },
        { field := "selectedPersona", required := true },
        { field := "lifelines", required := false },
        { field := "lastChoice", required := false }]
      outputField := "lifelines"
      nextAgentRules := [
        { condition := some .always, nextAgentId := some .pivotalMomentGeneration }]
      repeatable := true }
  | .pivotalMomentGeneration =>
    { id := "pivotalMomentGeneration"
      type := .pivotalMomentGeneration
      name := "Pivotal Moment Agent"
      systemPrompt := ""
      userPromptTemplate := ""
      inputFields := [
        { field := "historicalContext", required := true },
        { field := "lifelines", required := true },
        { field := "pivotalMoments", required := false }]
      outputField := "pivotalMoments"
      nextAgentRules := [
        { condition := some .userSelection, nextAgentId := some .lifelineGeneration },
        { condition := some .endCondition, nextAgentId := none }]
      repeatable := true
      requiresUserInput := true }
  | .imagePromptGeneration =>
    { id := "imagePromptGeneration"
      type := .imagePromptGeneration
      name := "Image Prompt Generation Agent"
      systemPrompt := ""
      userPromptTemplate := ""
      inputFields := [
        { field := "lifelines", required := false },
        { field := "pivotalMoments", required := false },
        { field := "historicalContext", required := true }]
      outputField := "imagePrompts"
      nextAgentRules := [
        { condition := some .always, nextAgentId := some .imageGeneration }]
      repeatable := true }
  | .imageGeneration =>
    { id := "imageGeneration"
      type := .imageGeneration
      name := "Image Generation Agent"
      systemPrompt := ""
      userPromptTemplate := ""
      inputFields := [
        { field := "imagePrompts", required := true },
        { field := "historicalContext", required := true }]
      outputField := "images"
      nextAgentRules := [
        { condition := some .always, nextAgentId := none }]
      repeatable := true }

/-- `getAgentConfig(agentId)`. -/
def getAgentConfig (agentId : AgentType) : AgentConfig := AGENTS agentId

/-- `getInitialAgent()`. -/
def getInitialAgent : AgentConfig := AGENTS .historicalContext

/-- The rule-evaluation loop of `getNextAgent`: first `always` rule, or first
`userSelection` rule when the user just acted; `endCondition` (and any other
condition) falls through; `null` when nothing matches. -/
def evalRules : List NextAgentRule → Bool → Option AgentType
  | [], _ => none
  | r :: rest, userJustMadeSelection =>
      match r.condition with
      | some .always => r.nextAgentId
      | some .userSelection =>
          if userJustMadeSelection then r.nextAgentId
          else evalRules rest userJustMadeSelection
      | _ => evalRules rest userJustMadeSelection

/-- The end-condition block of `getNextAgent` for `pivotalMomentGeneration`:
`pivotalMoments = sessionData.pivotalMoments || []`,
`maxMoments = sessionData.config?.maxPivotalMoments || 5`; end when the
count has reached the ceiling or the last moment's `characterDied` is truthy. -/
def pivotalEndCheck (pmRaw cfgRaw : JValue) : Bool :=
  let pivotalMoments := jsOr pmRaw (.arr [])
  let maxMoments := jsOr (optChainIndex cfgRaw "maxPivotalMoments") (.num 5)
  if jsGe (jIndex pivotalMoments "length") maxMoments then true
  else truthy (optChainIndex (jsLastElem pivotalMoments) "characterDied")

/-- The pause check followed by rule evaluation: terminal when the agent
requires user input and the user has not just acted, otherwise the first
matching rule's target. -/
def pauseOrRules (currentAgent : AgentConfig) (userJustMadeSelection : Bool) :
    Option AgentType :=
  if currentAgent.requiresUserInput ∧ ¬ userJustMadeSelection then none
  else evalRules currentAgent.nextAgentRules userJustMadeSelection

/-- `getNextAgent(currentAgentId, sessionData, userJustMadeSelection)`:
end-condition check (only for `pivotalMomentGeneration`), then the pause
check for `requiresUserInput` agents, then rule evaluation.  The property
reads on `sessionData` can throw when the session is nullish; `none` models
both the source's `null` and an `undefined` rule target. -/
def getNextAgent (currentAgentId : AgentType) (sessionData : JValue)
    (userJustMadeSelection : Bool) : Except String (Option AgentType) :=
  let currentAgent := AGENTS currentAgentId
  if currentAgentId = .pivotalMomentGeneration then
    match propGet sessionData "pivotalMoments" with
    | .error e => .error e
    | .ok pmRaw =>
      match propGet sessionData "config" with
      | .error e => .error e
      | .ok cfgRaw =>
        if pivotalEndCheck pmRaw cfgRaw then .ok none
        else .ok (pauseOrRules currentAgent userJustMadeSelection)
  else .ok (pauseOrRules currentAgent userJustMadeSelection)

/-! ## Prompt template rendering (`prompts.config.ts`)

`fillPromptTemplate` replaces each `$\x7bkey\x7d` placeholder with
`String.prototype.replace(regex, value)` where `value` is a *replacement
pattern*: `$$`, `$&`, `$`&#96;` and `$'` are special (ECMA-262
`GetSubstitution`; with no capture groups, `$n` stays literal).  The
variable keys produced by the executor are identifier-like, so the
regex-escaped pattern built in the source matches the literal placeholder
text. -/

/-- ECMA-262 `GetSubstitution` for a regex with no capture groups:
expand a replacement pattern given the matched text, the portion of the
subject before the match and the portion after it. -/
def expandRepl (matched before after : List Char) : List Char → List Char
  | [] => []
  | c :: rest =>
      if c = '$' then
        match rest with
        | [] => ['$']
        | c' :: rest' =>
            if c' = '$' then '$' :: expandRepl matched before after rest'
            else if c' = '&' then matched ++ expandRepl matched before after rest'
            else if c' = Char.ofNat 96 then before ++ expandRepl matched before after rest'
            else if c' = Char.ofNat 39 then after ++ expandRepl matched before after rest'
            else '$' :: c' :: expandRepl matched before after rest'
      else c :: expandRepl matched before after rest

/-- The global-replace loop of `String.prototype.replace(/pat/g, rep)` for a
literal pattern: scan left to right, replace each non-overlapping match with
the expanded replacement pattern, never rescanning replaced text.  `whole`
is the original subject (for `$`&#96;`/$'`), `pos` the current offset, and
the fuel is an upper bound on the remaining scan length. -/
def replaceGo (pat rep whole : List Char) : Nat → List Char → Nat → List Char
  | 0, s, _ => s
  | fuel + 1, s, pos =>
      if pat ≠ [] ∧ pat.isPrefixOf s then
        let after := s.drop pat.length
        expandRepl pat (whole.take pos) after rep ++
          replaceGo pat rep whole fuel after (pos + pat.length)
      else match s with
        | [] => []
        | c :: rest => c :: replaceGo pat rep whole fuel rest (pos + 1)

/-- `s.replace(new RegExp(escapedPat, "g"), rep)` for a literal pattern. -/
def replaceAllJs (pat rep s : String) : String :=
  (replaceGo pat.toList rep.toList s.toList (s.toList.length + 1) s.toList 0).asString

/-- `fillPromptTemplate(template, variables)`: for each entry, in insertion
order, globally replace the literal placeholder `$\x7bkey\x7d`. -/
def fillPromptTemplate (template : String) (vars : List (String × String)) : String :=
  vars.foldl
    (fun filledPrompt kv =>
      replaceAllJs ("$\x7b" ++ kv.1 ++ "\x7d") kv.2 filledPrompt)
    template

/-- Reference definition, following the specification's words: plain literal
replace-all, inserting the variable's string value exactly, with no
replacement-pattern expansion. -/
def literalReplaceGo (pat rep : List Char) : Nat → List Char → List Char
  | 0, s => s
  | fuel + 1, s =>
      if pat ≠ [] ∧ pat.isPrefixOf s then
        rep ++ literalReplaceGo pat rep fuel (s.drop pat.length)
      else match s with
        | [] => []
        | c :: rest => c :: literalReplaceGo pat rep fuel rest

/-- Plain literal global replacement (the specification's reading of
substitution). -/
def literalReplaceAll (pat rep s : String) : String :=
  (literalReplaceGo pat.toList rep.toList (s.toList.length + 1) s.toList).asString

/-! ## `JSON.stringify(value, null, 2)` -/

/-- Lower-case hexadecimal digit. -/
def hexDigit (n : Nat) : Char :=
  if n < 10 then Char.ofNat (48 + n) else Char.ofNat (87 + n)

/-- JSON string-character escaping. -/
def escapeJsonChar (c : Char) : List Char :=
  if c = '"' then ['\\', '"']
  else if c = '\\' then ['\\', '\\']
  else if c = '\n' then ['\\', 'n']
  else if c = '\r' then ['\\', 'r']
  else if c = '\t' then ['\\', 't']
  else if c = Char.ofNat 8 then ['\\', 'b']
  else if c = Char.ofNat 12 then ['\\', 'f']
  else if c.toNat < 32 then
    ['\\', 'u', '0', '0', hexDigit (c.toNat / 16), hexDigit (c.toNat % 16)]
  else [c]

/-- A JSON-quoted string. -/
def quoteJson (s : String) : String :=
  ("\"".toList ++ (s.toList.map escapeJsonChar).flatten ++ "\"".toList).asString

/-- Two spaces of indentation per depth level. -/
def indentStr (d : Nat) : String := (List.replicate (2 * d) ' ').asString

mutual

/-- `JSON.stringify(v, null, 2)` at nesting depth `d`.  `undefined` inside an
array serialises as `null` and inside an object drops the property; a parsed
session document never contains `undefined`, so the top-level corner (where
`JSON.stringify` returns no string at all) is unreachable at the modelled
call sites and rendered as `"null"`. -/
def jsonStr (d : Nat) : JValue → String
  | .undefined => "null"
  | .null => "null"
  | .bool b => if b then "true" else "false"
  | .num n => toString n
  | .str s => quoteJson s
  | .arr xs =>
      let items := jsonArrItems (d + 1) xs
      if items.isEmpty then "[]"
      else "[\n" ++
        String.intercalate ",\n" (items.map (fun p => indentStr (d + 1) ++ p)) ++
        "\n" ++ indentStr d ++ "]"
  | .obj fs =>
      let props := jsonObjProps (d + 1) fs
      if props.isEmpty then "\x7b\x7d"
      else "\x7b\n" ++
        String.intercalate ",\n" (props.map (fun p => indentStr (d + 1) ++ p)) ++
        "\n" ++ indentStr d ++ "\x7d"

/-- Array items, each rendered at the given depth. -/
def jsonArrItems (d : Nat) : List JValue → List String
  | [] => []
  | v :: rest => jsonStr d v :: jsonArrItems d rest

/-- Object properties, `undefined`-valued ones skipped. -/
def jsonObjProps (d : Nat) : List (String × JValue) → List String
  | [] => []
  | (k, v) :: rest =>
      match v with
      | .undefined => jsonObjProps d rest
      | v' => (quoteJson k ++ ": " ++ jsonStr d v') :: jsonObjProps d rest

end

/-- `JSON.stringify(v, null, 2)`. -/
def jsonStringify (v : JValue) : String := jsonStr 0 v

/-! ## Generic agent executor (`agentExecutor.ts`)

The executor runs against one session id; the read-modify-write round trips
through the store are collapsed to a threaded session document (per §5 of
the specification, per-session access is serialised).  The generation
backend, the wall-clock reads and the single `Math.random()` draw are
injected through `ExecEnv`. -/

/-- The value `generateImage` resolves with (`lib/openai.ts`): an image URL
and an optional revised prompt (absent modelled as `undefined`). -/
structure ImageResult where
  url : String
  revisedPrompt : JValue

/-- The injected environment of one `executeAgent` call. -/
structure ExecEnv where
  /-- `generateJSONCompletion(systemPrompt, userPrompt, modelConfig)`;
  the opaque model parameters are part of the function. -/
  textBackend : String → String → Except String JValue
  /-- `generateImage(userPrompt, modelConfig)`. -/
  imageBackend : String → Except String ImageResult
  /-- `new Date().toISOString()` at entry. -/
  startIso : String
  /-- `new Date().toISOString()` at exit. -/
  endIso : String
  /-- `new Date().toISOString()` inside `executeImageAgent`. -/
  imgIso : String
  /-- `Date.now()` at entry. -/
  startMs : Int
  /-- `Date.now()` for the `timestamp` template variable. -/
  tsMs : Int
  /-- `Date.now()` inside the image id. -/
  imgMs : Int
  /-- `Date.now()` at exit. -/
  endMs : Int
  /-- `Math.floor(Math.random() * 6)`, a value in `0..5`. -/
  randSix : Nat

/-- The executor's mutable world: the session document on disk and a spy
counter of generation-backend invocations. -/
structure ExecState where
  session : JValue
  backendCalls : Nat

/-- The object `executeImageAgent` returns on success. -/
def imageOutput (r : ImageResult) (env : ExecEnv) : JValue :=
  .obj [
    ("id", .str ("image-" ++ toString env.imgMs)),
    ("url", .str r.url),
    ("revisedPrompt", r.revisedPrompt),
    ("sourceType", .str "unknown"),
    ("sourceId", .str ""),
    ("timestamp", .str env.imgIso)]

/-- One entry of `summarizeInputData`: primitives kept, arrays and objects
replaced by size/key summaries. -/
def summarizeInputValue : JValue → JValue
  | .str s => .str s
  | .num n => .num n
  | .bool b => .bool b
  | .arr xs => .str ("[Array with " ++ toString xs.length ++ " items]")
  | .obj fs =>
      .str ("\x7b" ++ String.intercalate ", " (fs.map Prod.fst) ++ "\x7d")
  | other => other

/-- `summarizeInputData(inputData)`. -/
def summarizeInputData (inputData : List (String × JValue)) : JValue :=
  .obj (inputData.map (fun kv => (kv.1, summarizeInputValue kv.2)))

/-- `summarizeOutputData(output, outputField)` (the field argument is unused
in the source as well). -/
def summarizeOutputData (output : JValue) : JValue :=
  if ¬ truthy output then .null
  else match output with
    | .arr xs => .str ("[Array with " ++ toString xs.length ++ " items]")
    | .obj fs =>
        let s0 : List (String × JValue) := []
        let s1 := if truthy (jIndex output "id") then
            recordSet s0 "id" (jIndex output "id") else s0
        let s2 := if truthy (jIndex output "title") then
            recordSet s1 "title" (jIndex output "title") else s1
        let s3 := if truthy (jIndex output "age") then
            recordSet s2 "age" (jIndex output "age") else s2
        let s4 := if truthy (jIndex output "year") then
            recordSet s3 "year" (jIndex output "year") else s3
        let s5 := if ¬ isUndefined (jIndex output "startAge") then
            recordSet s4 "startAge" (jIndex output "startAge") else s4
        let s6 := if ¬ isUndefined (jIndex output "endAge") then
            recordSet s5 "endAge" (jIndex output "endAge") else s5
        let s7 := if truthy (jIndex output "options") then
            recordSet s6 "optionsCount" (jIndex (jIndex output "options") "length") else s6
        let s8 := if truthy (jIndex output "choices") then
            recordSet s7 "choicesCount" (jIndex (jIndex output "choices") "length") else s7
        let s9 := recordSet s8 "_structure"
            (.str (String.intercalate ", " (fs.map Prod.fst)))
        .obj s9
    | other => other

/-- The success `AgentExecutionLog` entry. -/
def successLog (cfg : AgentConfig) (env : ExecEnv)
    (inputData : List (String × JValue)) (output : JValue) : JValue :=
  .obj [
    ("agentId", .str cfg.id),
    ("agentName", .str cfg.name),
    ("startTime", .str env.startIso),
    ("endTime", .str env.endIso),
    ("duration", .num (env.endMs - env.startMs)),
    ("inputData", summarizeInputData inputData),
    ("outputData", summarizeOutputData output),
    ("success", .bool true)]

/-- The failure `AgentExecutionLog` entry. -/
def failureLog (cfg : AgentConfig) (env : ExecEnv) (errMsg : String) : JValue :=
  .obj [
    ("agentId", .str cfg.id),
    ("agentName", .str cfg.name),
    ("startTime", .str env.startIso),
    ("endTime", .str env.endIso),
    ("duration", .num (env.endMs - env.startMs)),
    ("inputData", .obj []),
    ("outputData", .null),
    ("success", .bool false),
    ("error", .str errMsg)]

/-- The coercion applied to each resolved input when it becomes a template
variable: strings kept, objects and arrays pretty-printed as JSON, other
values via `String(v)`. -/
def coerceTemplateVar : JValue → String
  | .str s => s
  | .arr xs => jsonStringify (.arr xs)
  | .obj fs => jsonStringify (.obj fs)
  | other => jsDisplay other

/-- `String(v + 1)` on the modelled numeric fragment (`undefined + 1` is
`NaN`). -/
def jsPlusOneStr (v : JValue) : String :=
  match jsToNum v with
  | some n => toString (n + 1)
  | none => "NaN"

/-- `buildPromptVariables(inputData, sessionId)` from `agentExecutor.ts`,
transcribed statement by statement; property reads that can throw a
`TypeError` in JavaScript surface as errors.  The session value is the
document the caller re-reads at entry. -/
def buildPromptVariables (inputData : List (String × JValue)) (session : JValue)
    (env : ExecEnv) : Except String (List (String × String)) := do
  if isNullish session then
    throw "TypeError: cannot read properties of a nullish session"
  let mut vars : List (String × String) := []
  -- convert all input data to strings for template filling
  for kv in inputData do
    let cleanKey := ((splitPath kv.1).getLast?).getD ""
    vars := recordSet vars cleanKey (coerceTemplateVar kv.2)
  -- common variables
  let hc := jIndex session "historicalContext"
  if truthy hc then
    vars := recordSet vars "historicalContextJson" (jsonStringify hc)
  let sp := jIndex session "selectedPersona"
  if truthy sp then
    vars := recordSet vars "personaJson" (jsonStringify sp)
  let lifelines := jIndex session "lifelines"
  if isNullish lifelines then
    throw "TypeError: cannot read length of nullish lifelines"
  if jsGt (jIndex lifelines "length") (.num 0) then
    vars := recordSet vars "lifelineJson" (jsonStringify (jsLastElem lifelines))
  let choices := jIndex session "choices"
  if isNullish choices then
    throw "TypeError: cannot read length of nullish choices"
  if jsGt (jIndex choices "length") (.num 0) then
    let title ← propGet (jsLastElem choices) "choiceTitle"
    vars := recordSet vars "previousChoice" (jsDisplay title)
  let pivotalMoments := jIndex session "pivotalMoments"
  if isNullish pivotalMoments then
    throw "TypeError: cannot read length of nullish pivotalMoments"
  if jsGt (jIndex pivotalMoments "length") (.num 0) then
    vars := recordSet vars "momentNumber" (jsPlusOneStr (jIndex pivotalMoments "length"))
  else
    vars := recordSet vars "momentNumber" "1"
  -- image prompt data for image generation
  let imagePrompts := jIndex session "imagePrompts"
  if isNullish imagePrompts then
    throw "TypeError: cannot read length of nullish imagePrompts"
  if jsGt (jIndex imagePrompts "length") (.num 0) then
    let p ← propGet (jsLastElem imagePrompts) "prompt"
    vars := recordSet vars "imagePrompt" (jsDisplay p)
    vars := recordSet vars "sceneDescription" (jsDisplay p)
  -- current age for pivotal moment generation
  if jsGt (jIndex lifelines "length") (.num 0) then
    let ea ← propGet (jsLastElem lifelines) "endAge"
    vars := recordSet vars "currentAge" (jsDisplay ea)
  else
    vars := recordSet vars "currentAge" "0"
  -- config values
  let cfg := jIndex session "config"
  if isNullish cfg then
    throw "TypeError: cannot read numberOfPersonaOptions of nullish config"
  vars := recordSet vars "numberOfOptions"
    (jsDisplay (jsOr (jIndex cfg "numberOfPersonaOptions") (.num 4)))
  -- previous lifeline section if continuing
  if jsGt (jIndex lifelines "length") (.num 0) ∧ jsGt (jIndex choices "length") (.num 0) then
    match lifelines with
    | .arr xs =>
        vars := recordSet vars "previousLifelineSection"
          ("Previous Lifelines:\n" ++ String.intercalate "\n\n" (xs.map jsonStringify))
    | _ => throw "TypeError: map is not a function"
  else
    vars := recordSet vars "previousLifelineSection" ""
  -- expected age range for lifeline generation
  let mut expectedStartAge : JValue := .num 0
  let mut yearsToAdvance : Int := 10
  if jsGt (jIndex lifelines "length") (.num 0) then
    let ea ← propGet (jsLastElem lifelines) "endAge"
    expectedStartAge := ea
    if jsLt ea (.num 20) then
      yearsToAdvance := (env.randSix : Int) + 10
    else if jsLt ea (.num 40) then
      yearsToAdvance := (env.randSix : Int) + 7
    else
      yearsToAdvance := (env.randSix : Int) + 5
  else
    expectedStartAge := .num 0
    yearsToAdvance := (env.randSix : Int) + 10
  vars := recordSet vars "expectedStartAge" (jsDisplay expectedStartAge)
  vars := recordSet vars "yearsToAdvance" (toString yearsToAdvance)
  -- continuation context if this is not the first lifeline
  if jsGt (jIndex lifelines "length") (.num 0) ∧ jsGt (jIndex choices "length") (.num 0) then
    let lastPivotalMoment := jsLastElem pivotalMoments
    let ct ← propGet (jsLastElem choices) "choiceTitle"
    vars := recordSet vars "continuationContext"
      ("CONTINUATION CONTEXT:\n- The character is now " ++ jsDisplay expectedStartAge ++
       " years old\n- Previous pivotal moment: \"" ++
       jsDisplay (jsOr (optChainIndex lastPivotalMoment "title") (.str "Unknown")) ++
       "\"\n- The character chose: \"" ++ jsDisplay ct ++
       "\"\n- You MUST continue the story from age " ++ jsDisplay expectedStartAge ++
       ", NOT from birth\n- Show the consequences and outcomes of their choice" ++
       "\n- Advance the narrative approximately " ++ toString yearsToAdvance ++
       " years forward")
    vars := recordSet vars "ageRangeWarning"
      ("⚠️ CRITICAL: You MUST start at age " ++ jsDisplay expectedStartAge ++
       " (not 0). This is a CONTINUATION of an existing life story.")
  else
    vars := recordSet vars "continuationContext"
      "This is the character\x27s first lifeline, starting from birth (age 0)."
    vars := recordSet vars "ageRangeWarning" ""
  -- scene context for image prompt generation
  let mut sceneContext := ""
  if jsGt (jIndex lifelines "length") (.num 0) then
    let latestLifeline := jsLastElem lifelines
    let sa ← propGet latestLifeline "startAge"
    let ea' ← propGet latestLifeline "endAge"
    sceneContext := sceneContext ++ "Latest Lifeline (Age " ++ jsDisplay sa ++ "-" ++
      jsDisplay ea' ++ "):\n"
    let narrative ← propGet latestLifeline "narrative"
    sceneContext := sceneContext ++ jsDisplay narrative ++ "\n\n"
  if jsGt (jIndex pivotalMoments "length") (.num 0) then
    let latestMoment := jsLastElem pivotalMoments
    sceneContext := sceneContext ++ "Latest Pivotal Moment:\n"
    let t ← propGet latestMoment "title"
    let a ← propGet latestMoment "age"
    sceneContext := sceneContext ++ jsDisplay t ++ " (Age " ++ jsDisplay a ++ ")\n"
    let situation ← propGet latestMoment "situation"
    sceneContext := sceneContext ++ jsDisplay situation ++ "\n"
  vars := recordSet vars "sceneContext"
    (if sceneContext = "" then "Character just started their life journey." else sceneContext)
  -- source type and id for image prompt generation
  vars := recordSet vars "sourceType" "context"
  let sid ← propGet (jIndex session "metadata") "sessionId"
  vars := recordSet vars "sourceId" (jsDisplay sid)
  vars := recordSet vars "timestamp" (toString env.tsMs)
  -- location and period info for prompts
  let inputv := jIndex session "input"
  let loc ← propGet inputv "location"
  vars := recordSet vars "location" (jsDisplay loc)
  let dt ← propGet inputv "date"
  vars := recordSet vars "period" (jsDisplay dt)
  vars := recordSet vars "contextDescription"
    (if truthy hc then
      jsDisplay (jIndex hc "country") ++ " - " ++ jsDisplay (jIndex hc "description")
     else jsDisplay loc)
  vars := recordSet vars "additionalStyleInstructions"
    "natural lighting, period-accurate details"
  pure vars

/-- The catch block of `executeAgent`: append a failure log entry carrying
the error message, then re-raise; a failure of the log append itself
propagates instead, leaving the session as it was. -/
def logFailureAndRethrow (cfg : AgentConfig) (env : ExecEnv) (e : String)
    (st : ExecState) : Except String JValue × ExecState :=
  match addExecutionLog st.session (failureLog cfg env e) with
  | .ok s' => (.error e, { st with session := s' })
  | .error e2 => (.error e2, st)

/-- `executeAgent(agentConfig, sessionId)`: resolve inputs, build template
variables, render the prompt, dispatch on the declared agent type (the
backend-call counter increments exactly when a backend operation is
invoked), write the output, append a success log; any failure is logged and
re-raised through the catch block.  The source's `userPrompt` local is
inlined into the dispatch expression, and its `startTime`/`startMs` locals
live in `env`; the session read once at entry is `st.session` throughout,
matching the sequential read-modify-write of one call. -/
def executeAgent (cfg : AgentConfig) (env : ExecEnv) (st : ExecState) :
    Except String JValue × ExecState :=
  match getAgentInput st.session cfg.inputFields with
  | .error e => logFailureAndRethrow cfg env e st
  | .ok inputData =>
    match buildPromptVariables inputData st.session env with
    | .error e => logFailureAndRethrow cfg env e st
    | .ok promptVariables =>
      match (if cfg.type = .imageGeneration then
              (env.imageBackend (fillPromptTemplate cfg.userPromptTemplate
                promptVariables)).map (fun r => imageOutput r env)
            else
              env.textBackend cfg.systemPrompt
                (fillPromptTemplate cfg.userPromptTemplate promptVariables)) with
      | .error e =>
          logFailureAndRethrow cfg env e
            { session := st.session, backendCalls := st.backendCalls + 1 }
      | .ok output =>
        match writeAgentOutput st.session cfg.outputField output with
        | .error e =>
            logFailureAndRethrow cfg env e
              { session := st.session, backendCalls := st.backendCalls + 1 }
        | .ok s1 =>
          match addExecutionLog s1 (successLog cfg env inputData output) with
          | .error e =>
              logFailureAndRethrow cfg env e
                { session := s1, backendCalls := st.backendCalls + 1 }
          | .ok s2 => (.ok output, { session := s2, backendCalls := st.backendCalls + 1 })

/-- `N` consecutive `executeAgent` calls on the same session, each with its
own environment; the boolean records whether every call succeeded. -/
def execN (cfg : AgentConfig) : List ExecEnv → ExecState → ExecState × Bool
  | [], st => (st, true)
  | env :: rest, st =>
      match executeAgent cfg env st with
      | (.ok _, st') => execN cfg rest st'
      | (.error _, st') => (st', false)

/-! ## The make-choice HTTP route (`api/sessions/make-choice/route.ts`)

The route validates the payload, rejects unknown artifacts and duplicate
decisions before any mutation, appends the decision, then ends the session
or delegates to the lifeline / pivotal-moment domain services.  The services
are injected: their behaviour is irrelevant to the properties proved here
because every rejection happens before they run. -/

/-- The JSON request body; absent fields are `none`. -/
structure MakeChoicePayload where
  sessionId : Option String
  pivotalMomentId : Option String
  choiceId : Option String

/-- The route's JSON response, projected to status code, `success` and
`error` (the timestamp field carries no information). -/
structure ApiResponse where
  status : Nat
  success : Bool
  error : Option String

/-- The two domain services the route calls after accepting a decision; each
may mutate the store and may throw. -/
structure RouteServices where
  generateLifeline : Store → Except String JValue × Store
  generatePivotalMoment : Store → Except String JValue × Store

/-- `String.prototype.trim` on the ASCII whitespace the payloads contain. -/
def jsTrim (s : String) : String :=
  let ws : Char → Bool := fun c => c = ' ' ∨ c = '\t' ∨ c = '\n' ∨ c = '\r'
  ((s.toList.dropWhile ws).reverse.dropWhile ws).reverse.asString

/-- `body.field?.trim()` followed by the `!value` validation check:
`none` on a missing field or a whitespace-only value. -/
def presentTrimmed : Option String → Option String
  | none => none
  | some s => let t := jsTrim s; if t = "" then none else some t

/-- `m.id === wanted` (strict equality against a string). -/
def idMatches (m : JValue) (wanted : String) : Bool :=
  match jIndex m "id" with
  | .str s => s = wanted
  | _ => false

/-- `c.pivotalMomentId === wanted`. -/
def choiceRefMatches (c : JValue) (wanted : String) : Bool :=
  match jIndex c "pivotalMomentId" with
  | .str s => s = wanted
  | _ => false

/-- `xs.find(pred)` where the receiver must be an array
(`.find` on anything else throws). -/
def jsFindArr (v : JValue) (pred : JValue → Bool) : Except String (Option JValue) :=
  match v with
  | .arr xs => .ok (xs.find? pred)
  | _ => .error "TypeError: find is not a function"

/-- A 400/404 rejection response. -/
def rejectResponse (status : Nat) (msg : String) : ApiResponse :=
  { status := status, success := false, error := some msg }

/-- The catch-all 500 response (`error.message`). -/
def catchResponse (msg : String) : ApiResponse :=
  { status := 500, success := false, error := some msg }

/-- The 200 success response. -/
def okResponse : ApiResponse := { status := 200, success := true, error := none }

/-- The tail of the route after a decision has been accepted: end the game on
`characterDied` or on reaching the ceiling, otherwise drive the next
lifeline / pivotal-moment generation, updating the step label around each
call.  Every thrown error falls into the outer catch with the store as
mutated so far. -/
def makeChoiceContinue (store1 : Store) (sessionId : String) (nowIso : String)
    (services : RouteServices) (session pivotalMoment pmsRaw : JValue) :
    ApiResponse × Store :=
  if truthy (jIndex pivotalMoment "characterDied") then
    match updateSessionMetadata store1 sessionId
        [("currentStep", .str "Game ended - character died"),
         ("status", .str "completed"),
         ("endTime", .str nowIso)] with
    | .error e => (catchResponse e, store1)
    | .ok store2 => (okResponse, store2)
  else
    match propGet session "config" with
    | .error e => (catchResponse e, store1)
    | .ok cfgv =>
     match propGet cfgv "maxPivotalMoments" with
     | .error e => (catchResponse e, store1)
     | .ok mpm =>
      let maxMoments := jsOr mpm (.num 5)
      if jsGe (jIndex pmsRaw "length") maxMoments then
        match updateSessionMetadata store1 sessionId
            [("currentStep", .str "Game ended - max moments reached"),
             ("status", .str "completed"),
             ("endTime", .str nowIso)] with
        | .error e => (catchResponse e, store1)
        | .ok store2 => (okResponse, store2)
      else
        match updateSessionMetadata store1 sessionId
            [("currentStep", .str "Generating next lifeline")] with
        | .error e => (catchResponse e, store1)
        | .ok store2 =>
          match services.generateLifeline store2 with
          | (.error e, store3) => (catchResponse e, store3)
          | (.ok _, store3) =>
            match updateSessionMetadata store3 sessionId
                [("currentStep", .str "Generating next pivotal moment")] with
            | .error e => (catchResponse e, store3)
            | .ok store4 =>
              match services.generatePivotalMoment store4 with
              | (.error e, store5) => (catchResponse e, store5)
              | (.ok _, store5) =>
                match updateSessionMetadata store5 sessionId
                    [("currentStep", .str "Awaiting choice")] with
                | .error e => (catchResponse e, store5)
                | .ok store6 => (okResponse, store6)

/-- The `POST` handler of `api/sessions/make-choice/route.ts`. -/
def makeChoicePOST (body : MakeChoicePayload) (store : Store) (nowIso : String)
    (services : RouteServices) : ApiResponse × Store :=
  match presentTrimmed body.sessionId with
  | none => (rejectResponse 400 "Session ID is required", store)
  | some sessionId =>
    match presentTrimmed body.pivotalMomentId with
    | none => (rejectResponse 400 "Pivotal moment ID is required", store)
    | some pivotalMomentId =>
      match presentTrimmed body.choiceId with
      | none => (rejectResponse 400 "Choice ID is required", store)
      | some choiceId =>
        match readSession store sessionId with
        | .error e => (catchResponse e, store)
        | .ok session =>
          match propGet session "pivotalMoments" with
          | .error e => (catchResponse e, store)
          | .ok pmsRaw =>
            match jsFindArr pmsRaw (fun m => idMatches m pivotalMomentId) with
            | .error e => (catchResponse e, store)
            | .ok none => (rejectResponse 404 "Pivotal moment not found", store)
            | .ok (some pivotalMoment) =>
              match propGet pivotalMoment "choices" with
              | .error e => (catchResponse e, store)
              | .ok chRaw =>
                match jsFindArr chRaw (fun c => idMatches c choiceId) with
                | .error e => (catchResponse e, store)
                | .ok none => (rejectResponse 404 "Choice not found", store)
                | .ok (some choice) =>
                  match propGet session "choices" with
                  | .error e => (catchResponse e, store)
                  | .ok scRaw =>
                    match jsFindArr scRaw
                        (fun c => choiceRefMatches c pivotalMomentId) with
                    | .error e => (catchResponse e, store)
                    | .ok (some _) =>
                        (rejectResponse 400
                          "A choice has already been made for this pivotal moment",
                         store)
                    | .ok none =>
                      let userChoice : JValue := .obj [
                        ("pivotalMomentId", .str pivotalMomentId),
                        ("choiceId", .str choiceId),
                        ("choiceTitle", jIndex choice "title"),
                        ("timestamp", .str nowIso)]
                      match addUserChoice store sessionId userChoice with
                      | .error e => (catchResponse e, store)
                      | .ok store1 =>
                          makeChoiceContinue store1 sessionId nowIso services
                            session pivotalMoment pmsRaw

/-! ## Shared example inputs

A minimal well-formed session document and executor environment, used by the
concrete witnesses below. -/

/-- A freshly shaped session document with empty collections. -/
def sampleSession : JValue := .obj [
  ("metadata", .obj [("sessionId", .str "s1"), ("totalSteps", .num 0)]),
  ("input", .obj [("date", .str "1450"), ("location", .str "Florence")]),
  ("config", .obj [("numberOfPersonaOptions", .num 4), ("maxPivotalMoments", .num 5)]),
  ("lifelines", .arr []),
  ("pivotalMoments", .arr []),
  ("choices", .arr []),
  ("imagePrompts", .arr []),
  ("images", .arr []),
  ("executionLogs", .arr [])]

/-- A stub environment whose text backend always succeeds with `1`. -/
def sampleEnv : ExecEnv :=
  { textBackend := fun _ _ => .ok (.num 1),
    imageBackend := fun _ => .error "unused",
    startIso := "t0", endIso := "t1", imgIso := "t2",
    startMs := 0, tsMs := 1, imgMs := 2, endMs := 3, randSix := 0 }

/-- A minimal append-target agent configuration with no declared inputs. -/
def sampleAppendCfg : AgentConfig :=
  { id := "demo", type := .lifelineGeneration, name := "Demo",
    systemPrompt := "", userPromptTemplate := "",
    inputFields := [], outputField := "lifelines",
    nextAgentRules := [], repeatable := true }

/-- The same configuration with one required input whose path is absent in
`sampleSession`. -/
def sampleMissingInputCfg : AgentConfig :=
  { sampleAppendCfg with inputFields := [{ field := "a.b", required := true }] }

/-! ## Helper lemmas -/

theorem recordGet_recordSet_self {α : Type} (l : List (String × α)) (k : String) (v : α) :
    recordGet (recordSet l k v) k = some v := by
  induction l with
  | nil => simp [recordSet, recordGet]
  | cons kv rest ih =>
      obtain ⟨k0, v0⟩ := kv
      by_cases h : k0 = k
      · simp [recordSet, h, recordGet]
      · simpa [recordSet, h, recordGet] using ih

theorem recordGet_recordSet_ne {α : Type} (l : List (String × α)) (k k' : String) (v : α)
    (h : k' ≠ k) : recordGet (recordSet l k v) k' = recordGet l k' := by
  induction l with
  | nil => simp [recordSet, recordGet, Ne.symm h]
  | cons kv rest ih =>
      obtain ⟨k0, v0⟩ := kv
      by_cases hk : k0 = k
      · subst hk
        simp [recordSet, recordGet, Ne.symm h]
      · by_cases hk' : k0 = k'
        · simp [recordSet, hk, recordGet, hk', h]
        · simpa [recordSet, hk, recordGet, hk'] using ih

theorem readSession_writeSession_self (store : Store) (sid : String) (s : JValue) :
    readSession (writeSession store sid s) sid = .ok s := by
  unfold readSession writeSession
  rw [recordGet_recordSet_self]

/-- The catch block never produces a success result. -/
theorem logFailureAndRethrow_fst_ne_ok (cfg : AgentConfig) (env : ExecEnv) (e : String)
    (st : ExecState) (out : JValue) :
    (logFailureAndRethrow cfg env e st).1 ≠ .ok out := by
  unfold logFailureAndRethrow
  cases addExecutionLog st.session (failureLog cfg env e) <;> simp

/-! ## C1 -/

/-- The outputField names the Agent Registry classifies as append-target
collections: the outputFields annotated `// Appends to array` in
`agents.config.ts` — those of the four repeatable, collection-producing
agents. -/
def registryAppendTargets : List String :=
  [(AGENTS .lifelineGeneration).outputField,
   (AGENTS .pivotalMomentGeneration).outputField,
   (AGENTS .imagePromptGeneration).outputField,
   (AGENTS .imageGeneration).outputField]

/-- C1: every outputField the Registry classifies as an append-target
collection (`lifelines`, `pivotalMoments`, `imagePrompts`, `images`) is on
the Store's append allow-list, and `writeAgentOutput` handles a write to it
with append semantics — the existing collection with the output pushed at
the end — never by set/overwrite.  The Store's allow-list additionally
guards `choices`, the user-decision collection of the shared contract,
which the store's own `addUserChoice` likewise appends to; no field is
classified append by one side and set by the other. -/
theorem c1_append_classification_agreement :
    (∀ f ∈ registryAppendTargets, f ∈ appendAllowList) ∧
    (∀ f, f ∈ registryAppendTargets →
      ∀ (fields : List (String × JValue)) (xs : List JValue) (out : JValue),
        jIndex (.obj fields) f = .arr xs →
        writeAgentOutput (.obj fields) f out
          = .ok (.obj (recordSet fields f (.arr (xs ++ [out]))))) := by
  constructor
  · decide
  · intro f hf
    have hmem : f ∈ appendAllowList := by revert f hf; decide
    intro fields xs out hx
    unfold writeAgentOutput
    rw [if_pos hmem, hx]

/-- C1 witness: a write to `imagePrompts` — the Registry's append-target for
the image-prompt agent — on a session already holding one prompt appends the
new one. -/
theorem c1_append_classification_witness :
    writeAgentOutput (.obj [("imagePrompts", .arr [.str "p0"])]) "imagePrompts" (.str "p1")
      = .ok (.obj [("imagePrompts", .arr [.str "p0", .str "p1"])]) :=
  c1_append_classification_agreement.2 "imagePrompts" (by decide)
    [("imagePrompts", .arr [.str "p0"])] [.str "p0"] (.str "p1") rfl

/-! ## C5 -/

/-- C5 counterexample: `createSession` does not fail when a session with the
generated id already exists — it silently replaces the stored document.
With a pre-existing document under `session-20240101-000000` and a clock
that generates that same id, creation returns normally and the stored
document afterwards is the fresh empty session, not the original one. -/
theorem c5_create_overwrite_counterexample :
    (createSession [("session-20240101-000000", .str "old")]
        ⟨2024, 0, 1, 0, 0, 0⟩ "iso" (.obj []) (.obj [])).2
      = [("session-20240101-000000",
          createEmptySession "session-20240101-000000" (.obj []) (.obj []) "iso")] ∧
    createEmptySession "session-20240101-000000" (.obj []) (.obj []) "iso" ≠ .str "old" :=
  ⟨rfl, fun h => by simp [createEmptySession] at h⟩

/-- C5 (amended): session creation performs no duplicate-id check.
`createSession` unconditionally writes the fresh empty session under the
generated timestamped id — last writer wins, replacing any document already
stored under that id; uniqueness rests solely on the caller-side timestamped
id generator. -/
theorem c5_create_always_writes (store : Store) (c : Clock) (nowIso : String)
    (input config : JValue) :
    (createSession store c nowIso input config).1
      = (generateSessionId c,
         createEmptySession (generateSessionId c) input config nowIso) ∧
    (createSession store c nowIso input config).2
      = writeSession store (generateSessionId c)
          (createEmptySession (generateSessionId c) input config nowIso) ∧
    readSession (createSession store c nowIso input config).2 (generateSessionId c)
      = .ok (createEmptySession (generateSessionId c) input config nowIso) :=
  ⟨rfl, rfl, readSession_writeSession_self ..⟩

/-! ## C2 -/

/-- C2: once the pivotal-moment count has reached the resolved ceiling
(`config?.maxPivotalMoments || 5`), `getNextAgent('pivotalMomentGeneration',
session, userJustActed)` returns terminal for either value of
`userJustActed` — the end-condition check precedes and overrides rule
evaluation — even though the agent's rules contain a `userSelection` rule
targeting `lifelineGeneration`. -/
theorem c2_ceiling_overrides_rules (s : JValue) (moms : List JValue) (mx : Int) (u : Bool)
    (hobj : isObj s = true)
    (hpm : jIndex s "pivotalMoments" = .arr moms)
    (hmx : jsOr (optChainIndex (jIndex s "config") "maxPivotalMoments") (.num 5) = .num mx)
    (hlen : mx ≤ (moms.length : Int)) :
    getNextAgent .pivotalMomentGeneration s u = .ok none ∧
    ∃ r ∈ (AGENTS .pivotalMomentGeneration).nextAgentRules,
      r.condition = some .userSelection ∧ r.nextAgentId = some .lifelineGeneration := by
  cases s with
  | obj fields =>
      refine ⟨?_, ⟨⟨some .userSelection, some .lifelineGeneration⟩, by simp [AGENTS], rfl, rfl⟩⟩
      have hend : pivotalEndCheck (jIndex (JValue.obj fields) "pivotalMoments")
          (jIndex (JValue.obj fields) "config") = true := by
        rw [hpm]
        have h1 : jsOr (JValue.arr moms) (JValue.arr []) = JValue.arr moms := rfl
        have h2 : jsGe (jIndex (JValue.arr moms) "length") (JValue.num mx) = true := by
          simp only [jIndex, reduceIte, jsGe, jsToNum]
          simpa using hlen
        simp [pivotalEndCheck, h1, hmx, h2]
      simp [getNextAgent, propGet, hend]
  | undefined => simp [isObj] at hobj
  | null => simp [isObj] at hobj
  | bool b => simp [isObj] at hobj
  | num n => simp [isObj] at hobj
  | str s => simp [isObj] at hobj
  | arr xs => simp [isObj] at hobj

/-- C2 witness: a session with two pivotal moments and a configured ceiling
of two is terminal even with `userJustActed = true`. -/
theorem c2_ceiling_witness :
    getNextAgent .pivotalMomentGeneration
      (.obj [("pivotalMoments", .arr [.obj [], .obj []]),
             ("config", .obj [("maxPivotalMoments", .num 2)])]) true = .ok none :=
  (c2_ceiling_overrides_rules
    (.obj [("pivotalMoments", .arr [.obj [], .obj []]),
           ("config", .obj [("maxPivotalMoments", .num 2)])])
    [.obj [], .obj []] 2 true rfl rfl rfl (by decide)).1

/-! ## C6 -/

/-- C6: for every agent whose configuration declares `requiresUserInput` and
every session document, `getNextAgent(agentId, session, false)` returns
terminal (the pause signal), irrespective of that agent's rules. -/
theorem c6_pause_on_requiresUserInput (aid : AgentType) (s : JValue)
    (hreq : (AGENTS aid).requiresUserInput = true)
    (hobj : isObj s = true) :
    getNextAgent aid s false = .ok none := by
  cases s with
  | obj fields =>
      cases aid with
      | personaGeneration => rfl
      | pivotalMomentGeneration =>
          simp only [getNextAgent, propGet, reduceIte]
          cases pivotalEndCheck (jIndex (JValue.obj fields) "pivotalMoments")
            (jIndex (JValue.obj fields) "config") <;>
            simp [pauseOrRules, AGENTS]
      | historicalContext => simp [AGENTS] at hreq
      | lifelineGeneration => simp [AGENTS] at hreq
      | imagePromptGeneration => simp [AGENTS] at hreq
      | imageGeneration => simp [AGENTS] at hreq
  | undefined => simp [isObj] at hobj
  | null => simp [isObj] at hobj
  | bool b => simp [isObj] at hobj
  | num n => simp [isObj] at hobj
  | str s => simp [isObj] at hobj
  | arr xs => simp [isObj] at hobj

/-- C6 witness: `personaGeneration` (whose rules contain a `userSelection`
target) pauses on an empty session when the user has not acted. -/
theorem c6_pause_witness :
    getNextAgent .personaGeneration (.obj []) false = .ok none :=
  c6_pause_on_requiresUserInput .personaGeneration (.obj []) rfl rfl

/-! ## C8 -/

theorem expandRepl_no_dollar (matched before after rep : List Char)
    (h : '$' ∉ rep) : expandRepl matched before after rep = rep := by
  induction rep with
  | nil => rfl
  | cons c rest ih =>
      have hc : ¬ c = '$' := fun hc => h (by simp [hc])
      have hrest : '$' ∉ rest := fun hr => h (List.mem_cons_of_mem _ hr)
      rw [expandRepl.eq_def]
      simp only [if_neg hc]
      rw [ih hrest]

theorem replaceGo_no_dollar (pat rep whole : List Char) (h : '$' ∉ rep) :
    ∀ (fuel : Nat) (s : List Char) (pos : Nat),
      replaceGo pat rep whole fuel s pos = literalReplaceGo pat rep fuel s := by
  intro fuel
  induction fuel with
  | zero => intro s pos; rfl
  | succ n ih =>
      intro s pos
      simp only [replaceGo, literalReplaceGo]
      by_cases hm : pat ≠ [] ∧ pat.isPrefixOf s
      · rw [if_pos hm, if_pos hm, expandRepl_no_dollar _ _ _ _ h, ih]
      · rw [if_neg hm, if_neg hm]
        cases s with
        | nil => rfl
        | cons c rest =>
            show c :: replaceGo pat rep whole n rest (pos + 1)
              = c :: literalReplaceGo pat rep n rest
            rw [ih]

/-- C8 counterexample: the template renderer does not insert the variable's
value verbatim for every possible value.  Replacement goes through
JavaScript's replacement-pattern expansion, so the value `"$&"` expands to
the matched placeholder text itself: rendering `"$\x7bk\x7d"` with
`k = "$&"` yields `"$\x7bk\x7d"`, not the value `"$&"`. -/
theorem c8_replacement_pattern_counterexample :
    fillPromptTemplate "$\x7bk\x7d" [("k", "$&")] = "$\x7bk\x7d" ∧
    "$\x7bk\x7d" ≠ "$&" :=
  ⟨rfl, by decide⟩

/-- C8 (amended): rendering processes the variable entries in insertion
order and globally replaces each `$\x7bkey\x7d` placeholder using JavaScript
replacement-pattern semantics; whenever no variable value contains a `$`
character, this coincides exactly with plain literal substitution of each
value (so each placeholder occurrence is replaced by the value verbatim, a
placeholder without an entry is left verbatim, and rendering never throws).
Values containing `$` are instead interpreted as replacement patterns, and a
value inserted by an earlier entry can still be rewritten by a later one. -/
theorem c8_literal_substitution_amended (template : String)
    (vars : List (String × String)) (h : ∀ kv ∈ vars, '$' ∉ kv.2.toList) :
    fillPromptTemplate template vars =
      vars.foldl
        (fun acc kv => literalReplaceAll ("$\x7b" ++ kv.1 ++ "\x7d") kv.2 acc)
        template := by
  revert h
  induction vars generalizing template with
  | nil => intro _; rfl
  | cons kv rest ih =>
      intro h
      have hkv : '$' ∉ kv.2.toList := h kv (by simp)
      have hrest : ∀ kv' ∈ rest, '$' ∉ kv'.2.toList :=
        fun kv' hm => h kv' (List.mem_cons_of_mem _ hm)
      have hstep : replaceAllJs ("$\x7b" ++ kv.1 ++ "\x7d") kv.2 template
          = literalReplaceAll ("$\x7b" ++ kv.1 ++ "\x7d") kv.2 template := by
        unfold replaceAllJs literalReplaceAll
        rw [replaceGo_no_dollar _ _ _ hkv]
      simp only [fillPromptTemplate, List.foldl_cons] at ih ⊢
      rw [hstep, ih _ hrest]

/-- C8 witness: with a dollar-free value the rendering is literal
substitution. -/
theorem c8_literal_substitution_witness :
    fillPromptTemplate "a $\x7bk\x7d b" [("k", "V")] =
      [("k", "V")].foldl
        (fun acc kv => literalReplaceAll ("$\x7b" ++ kv.1 ++ "\x7d") kv.2 acc)
        "a $\x7bk\x7d b" :=
  c8_literal_substitution_amended "a $\x7bk\x7d b" [("k", "V")] (by decide)

/-! ## C3 -/

theorem getAgentInputGo_missing :
    ∀ (inputFields : List AgentInputField) (session : JValue) (acc : List (String × JValue)),
      (∃ f ∈ inputFields, f.required = true ∧ isUndefined (getNestedValue session f.field) = true) →
      ∃ fld, getAgentInputGo session inputFields acc
          = .error ("Required input field missing: " ++ fld) := by
  intro inputFields
  induction inputFields with
  | nil =>
      intro session acc h
      obtain ⟨f, hf, _⟩ := h
      exact absurd hf (List.not_mem_nil f)
  | cons f0 rest ih =>
      intro session acc h
      by_cases h0 : f0.required = true ∧ isUndefined (getNestedValue session f0.field) = true
      · exact ⟨f0.field, by simp [getAgentInputGo, h0]⟩
      · obtain ⟨f, hf, hreq, hmiss⟩ := h
        rcases List.mem_cons.mp hf with rfl | hrest
        · exact absurd ⟨hreq, hmiss⟩ h0
        · obtain ⟨fld, hfld⟩ := ih session
            (if isUndefined (getNestedValue session f0.field) then acc
             else recordSet acc f0.field (getNestedValue session f0.field))
            ⟨f, hrest, hreq, hmiss⟩
          exact ⟨fld, by simp only [getAgentInputGo, if_neg h0]; exact hfld⟩

theorem addExecutionLog_ok (sfields : List (String × JValue)) (logs : List JValue)
    (mf : List (String × JValue)) (log : JValue)
    (hE : recordGet sfields "executionLogs" = some (.arr logs))
    (hM : recordGet sfields "metadata" = some (.obj mf)) :
    addExecutionLog (.obj sfields) log
      = .ok (.obj (recordSet
          (recordSet sfields "executionLogs" (.arr (logs ++ [log]))) "metadata"
          (.obj (recordSet mf "totalSteps" (.num (logs ++ [log]).length))))) := by
  have hM1 : recordGet (recordSet sfields "executionLogs" (.arr (logs ++ [log]))) "metadata"
      = some (.obj mf) := by
    rw [recordGet_recordSet_ne _ _ _ _ (by decide)]
    exact hM
  simp [addExecutionLog, hE, hM1]

/-- C3: when an agent declares a required input field whose dotted path is
absent in the (well-formed) session, `executeAgent` fails with a
missing-input error raised before the generation backend is invoked: the
backend-call counter is unchanged (zero stays zero), and the failure is the
missing-input message, not a downstream error. -/
theorem c3_missing_input_before_backend (cfg : AgentConfig) (env : ExecEnv)
    (st : ExecState) (sfields : List (String × JValue)) (logs : List JValue)
    (mf : List (String × JValue))
    (hs : st.session = .obj sfields)
    (hE : recordGet sfields "executionLogs" = some (.arr logs))
    (hM : recordGet sfields "metadata" = some (.obj mf))
    (hmiss : ∃ f ∈ cfg.inputFields, f.required = true ∧
      isUndefined (getNestedValue st.session f.field) = true) :
    (∃ fld, (executeAgent cfg env st).1
        = .error ("Required input field missing: " ++ fld)) ∧
    (executeAgent cfg env st).2.backendCalls = st.backendCalls := by
  obtain ⟨fld, hga⟩ := getAgentInputGo_missing cfg.inputFields st.session [] hmiss
  have hlog := addExecutionLog_ok sfields logs mf
    (failureLog cfg env ("Required input field missing: " ++ fld)) hE hM
  rw [← hs] at hlog
  refine ⟨⟨fld, ?_⟩, ?_⟩
  · simp [executeAgent, getAgentInput, hga, logFailureAndRethrow, hlog]
  · simp [executeAgent, getAgentInput, hga, logFailureAndRethrow, hlog]

/-- C3 witness: an agent requiring the absent path `a.b` fails with the
missing-input error and the backend spy stays at zero. -/
theorem c3_missing_input_witness :
    (∃ fld, (executeAgent sampleMissingInputCfg sampleEnv ⟨sampleSession, 0⟩).1
        = .error ("Required input field missing: " ++ fld)) ∧
    (executeAgent sampleMissingInputCfg sampleEnv ⟨sampleSession, 0⟩).2.backendCalls = 0 :=
  c3_missing_input_before_backend sampleMissingInputCfg sampleEnv ⟨sampleSession, 0⟩
    [("metadata", .obj [("sessionId", .str "s1"), ("totalSteps", .num 0)]),
     ("input", .obj [("date", .str "1450"), ("location", .str "Florence")]),
     ("config", .obj [("numberOfPersonaOptions", .num 4), ("maxPivotalMoments", .num 5)]),
     ("lifelines", .arr []),
     ("pivotalMoments", .arr []),
     ("choices", .arr []),
     ("imagePrompts", .arr []),
     ("images", .arr []),
     ("executionLogs", .arr [])]
    [] [("sessionId", .str "s1"), ("totalSteps", .num 0)]
    rfl rfl rfl
    ⟨{ field := "a.b", required := true }, List.mem_singleton.mpr rfl, rfl, rfl⟩

/-! ## C4 -/

/-- Inversion of a successful `executeAgent` run: the result value was
written through `writeAgentOutput`, a success log entry was appended on top
of that, and the backend was called exactly once. -/
theorem executeAgent_ok_inv (cfg : AgentConfig) (env : ExecEnv) (st st' : ExecState)
    (out : JValue) (hres : executeAgent cfg env st = (.ok out, st')) :
    ∃ inputData s1, writeAgentOutput st.session cfg.outputField out = .ok s1 ∧
      addExecutionLog s1 (successLog cfg env inputData out) = .ok st'.session ∧
      st'.backendCalls = st.backendCalls + 1 := by
  unfold executeAgent at hres
  split at hres
  · exact absurd (congrArg Prod.fst hres) (logFailureAndRethrow_fst_ne_ok _ _ _ _ _)
  next inputData hga =>
    split at hres
    · exact absurd (congrArg Prod.fst hres) (logFailureAndRethrow_fst_ne_ok _ _ _ _ _)
    next pv hbv =>
      split at hres
      · exact absurd (congrArg Prod.fst hres) (logFailureAndRethrow_fst_ne_ok _ _ _ _ _)
      next output hbr =>
          split at hres
          · exact absurd (congrArg Prod.fst hres) (logFailureAndRethrow_fst_ne_ok _ _ _ _ _)
          next s1 hw =>
            split at hres
            · exact absurd (congrArg Prod.fst hres) (logFailureAndRethrow_fst_ne_ok _ _ _ _ _)
            next s2 hl =>
              simp only [Prod.mk.injEq, Except.ok.injEq] at hres
              obtain ⟨hout, hst⟩ := hres
              subst hout
              refine ⟨inputData, s1, hw, ?_, ?_⟩
              · rw [← hst]
                exact hl
              · rw [← hst]

/-- A successful `writeAgentOutput` on an allow-listed field whose current
value is an array appends the output at the end. -/
theorem writeAgentOutput_append (s : JValue) (f : String) (out : JValue) (xs : List JValue)
    (s1 : JValue) (hf : f ∈ appendAllowList) (hx : jIndex s f = .arr xs)
    (hw : writeAgentOutput s f out = .ok s1) :
    jIndex s1 f = .arr (xs ++ [out]) := by
  unfold writeAgentOutput at hw
  rw [if_pos hf] at hw
  cases s with
  | obj fields =>
      rw [hx] at hw
      simp only [Except.ok.injEq] at hw
      rw [← hw]
      simp [jIndex, recordGet_recordSet_self]
  | undefined => exact absurd hw (by simp)
  | null => exact absurd hw (by simp)
  | bool b => exact absurd hw (by simp)
  | num n => exact absurd hw (by simp)
  | str s2 => exact absurd hw (by simp)
  | arr ys => exact absurd hw (by simp)

/-- `addExecutionLog` only touches `executionLogs` and `metadata`; every
other top-level field keeps its value. -/
theorem addExecutionLog_preserves (s1 s2 log : JValue) (f : String)
    (hne1 : f ≠ "executionLogs") (hne2 : f ≠ "metadata")
    (hl : addExecutionLog s1 log = .ok s2) :
    jIndex s2 f = jIndex s1 f := by
  cases s1 with
  | obj fields =>
      cases hE : recordGet fields "executionLogs" with
      | none => simp [addExecutionLog, hE] at hl
      | some v =>
          cases v with
          | arr xs =>
              cases hM : recordGet (recordSet fields "executionLogs" (.arr (xs ++ [log])))
                  "metadata" with
              | none => simp [addExecutionLog, hE, hM] at hl
              | some m =>
                  cases m with
                  | obj mf =>
                      have h2 : JValue.obj (recordSet
                          (recordSet fields "executionLogs" (.arr (xs ++ [log])))
                          "metadata"
                          (.obj (recordSet mf "totalSteps" (.num (xs ++ [log]).length))))
                          = s2 := by
                        have h3 := hl
                        simp only [addExecutionLog, hE, hM, Except.ok.injEq] at h3
                        exact h3
                      rw [← h2]
                      simp [jIndex, recordGet_recordSet_ne _ _ _ _ hne2,
                        recordGet_recordSet_ne _ _ _ _ hne1]
                  | undefined => simp [addExecutionLog, hE, hM] at hl
                  | null => simp [addExecutionLog, hE, hM] at hl
                  | bool b => simp [addExecutionLog, hE, hM] at hl
                  | num n => simp [addExecutionLog, hE, hM] at hl
                  | str s3 => simp [addExecutionLog, hE, hM] at hl
                  | arr ys => simp [addExecutionLog, hE, hM] at hl
          | undefined => simp [addExecutionLog, hE] at hl
          | null => simp [addExecutionLog, hE] at hl
          | bool b => simp [addExecutionLog, hE] at hl
          | num n => simp [addExecutionLog, hE] at hl
          | str s3 => simp [addExecutionLog, hE] at hl
          | obj f2 => simp [addExecutionLog, hE] at hl
  | undefined => simp [addExecutionLog] at hl
  | null => simp [addExecutionLog] at hl
  | bool b => simp [addExecutionLog] at hl
  | num n => simp [addExecutionLog] at hl
  | str s3 => simp [addExecutionLog] at hl
  | arr ys => simp [addExecutionLog] at hl

/-- One successful `executeAgent` call on an allow-listed output field grows
that collection by exactly the returned output. -/
theorem executeAgent_ok_append (cfg : AgentConfig) (env : ExecEnv) (st st' : ExecState)
    (out : JValue) (xs : List JValue)
    (hres : executeAgent cfg env st = (.ok out, st'))
    (hf : cfg.outputField ∈ appendAllowList)
    (hx : jIndex st.session cfg.outputField = .arr xs) :
    jIndex st'.session cfg.outputField = .arr (xs ++ [out]) := by
  have hf' : cfg.outputField = "lifelines" ∨ cfg.outputField = "pivotalMoments" ∨
      cfg.outputField = "images" ∨ cfg.outputField = "imagePrompts" ∨
      cfg.outputField = "choices" := by
    simpa [appendAllowList] using hf
  have hne1 : cfg.outputField ≠ "executionLogs" := by
    rcases hf' with h | h | h | h | h <;> rw [h] <;> decide
  have hne2 : cfg.outputField ≠ "metadata" := by
    rcases hf' with h | h | h | h | h <;> rw [h] <;> decide
  obtain ⟨inputData, s1, hw, hl, _⟩ := executeAgent_ok_inv cfg env st st' out hres
  rw [addExecutionLog_preserves s1 st'.session _ _ hne1 hne2 hl]
  exact writeAgentOutput_append st.session cfg.outputField out xs s1 hf hx hw

/-- C4: for every agent configuration whose output field is on the Store's
append allow-list — which contains the four enumerated fields `lifelines`,
`pivotalMoments`, `images`, `choices`, and in the live store also
`imagePrompts` — `N` consecutive successful `executeAgent` calls on the
same session grow that collection's length by exactly `N`, and every entry
present before a call is still present, unchanged and in its original
position afterwards (the prior entries form a prefix of the final
collection). -/
theorem c4_append_growth (cfg : AgentConfig) (hf : cfg.outputField ∈ appendAllowList) :
    ∀ (envs : List ExecEnv) (st : ExecState) (xs : List JValue),
      jIndex st.session cfg.outputField = .arr xs →
      (execN cfg envs st).2 = true →
      ∃ ys : List JValue,
        jIndex (execN cfg envs st).1.session cfg.outputField = .arr (xs ++ ys) ∧
        ys.length = envs.length := by
  intro envs
  induction envs with
  | nil =>
      intro st xs hx _
      exact ⟨[], by simpa [execN] using hx, rfl⟩
  | cons env rest ih =>
      intro st xs hx hok
      cases hE : executeAgent cfg env st with
      | mk r st1 =>
          cases r with
          | error e => simp [execN, hE] at hok
          | ok out =>
              have hstep := executeAgent_ok_append cfg env st st1 out xs hE hf hx
              have hred : execN cfg (env :: rest) st = execN cfg rest st1 := by
                simp [execN, hE]
              rw [hred] at hok ⊢
              obtain ⟨ys, hy, hylen⟩ := ih st1 (xs ++ [out]) hstep hok
              exact ⟨out :: ys, by rw [hy]; simp, by simp [hylen]⟩

/-- C4 witness: two successful runs of an agent writing to `lifelines` on a
fresh session produce a collection of length two extending the empty prefix. -/
theorem c4_append_growth_witness :
    ∃ ys : List JValue,
      jIndex (execN sampleAppendCfg [sampleEnv, sampleEnv]
          ⟨sampleSession, 0⟩).1.session sampleAppendCfg.outputField = .arr ([] ++ ys) ∧
      ys.length = 2 :=
  c4_append_growth sampleAppendCfg (by decide) [sampleEnv, sampleEnv]
    ⟨sampleSession, 0⟩ [] rfl rfl

/-! ## C7 -/

/-- C7: when the session already contains a `UserChoice` referencing a given
pivotal-moment artifact id, a second decision submitted against that same id
is rejected by the make-choice route with a non-success response, and the
store is left exactly as it was — the rejection happens before any session
mutation (no decision appended, no metadata changed). -/
theorem c7_duplicate_decision_rejected (body : MakeChoicePayload) (store : Store)
    (nowIso : String) (services : RouteServices) (sid pid cid : String)
    (session : JValue) (cs : List JValue) (c : JValue)
    (hsid : presentTrimmed body.sessionId = some sid)
    (hpid : presentTrimmed body.pivotalMomentId = some pid)
    (hcid : presentTrimmed body.choiceId = some cid)
    (hread : readSession store sid = .ok session)
    (hch : jIndex session "choices" = .arr cs)
    (hc : c ∈ cs)
    (hmatch : choiceRefMatches c pid = true) :
    (makeChoicePOST body store nowIso services).1.success = false ∧
    (makeChoicePOST body store nowIso services).2 = store := by
  have hnn : ∀ k, propGet session k = .ok (jIndex session k) := by
    intro k
    cases session <;> first | rfl | simp [jIndex] at hch
  suffices h : ∃ resp : ApiResponse,
      makeChoicePOST body store nowIso services = (resp, store) ∧ resp.success = false by
    obtain ⟨resp, heq, hsucc⟩ := h
    rw [heq]
    exact ⟨hsucc, rfl⟩
  simp only [makeChoicePOST, hsid, hpid, hcid, hread, hnn, hch, jsFindArr]
  split
  · exact ⟨_, rfl, rfl⟩
  · exact ⟨_, rfl, rfl⟩
  next pivotalMoment hfound =>
    split
    · exact ⟨_, rfl, rfl⟩
    next chRaw hchoices =>
      split
      · exact ⟨_, rfl, rfl⟩
      · exact ⟨_, rfl, rfl⟩
      next choice hcfound =>
        split
        · exact ⟨_, rfl, rfl⟩
        next existing hdupsome => exact ⟨_, rfl, rfl⟩
        next hdupnone =>
          exfalso
          have hn : cs.find? (fun c' => choiceRefMatches c' pid) = none :=
            Except.ok.inj hdupnone
          exact absurd hmatch (by simpa using List.find?_eq_none.mp hn c hc)

/-- C7 witness: re-submitting a decision for `pm1`, which already has a
recorded choice, yields a non-success response and an unchanged store. -/
theorem c7_duplicate_decision_witness :
    (makeChoicePOST ⟨some "s1", some "pm1", some "c1"⟩
        [("s1", .obj [
          ("pivotalMoments", .arr [.obj [("id", .str "pm1"),
            ("choices", .arr [.obj [("id", .str "c1"), ("title", .str "Go")]])]]),
          ("choices", .arr [.obj [("pivotalMomentId", .str "pm1")]])])]
        "now"
        ⟨fun st => (.ok .null, st), fun st => (.ok .null, st)⟩).1.success = false ∧
    (makeChoicePOST ⟨some "s1", some "pm1", some "c1"⟩
        [("s1", .obj [
          ("pivotalMoments", .arr [.obj [("id", .str "pm1"),
            ("choices", .arr [.obj [("id", .str "c1"), ("title", .str "Go")]])]]),
          ("choices", .arr [.obj [("pivotalMomentId", .str "pm1")]])])]
        "now"
        ⟨fun st => (.ok .null, st), fun st => (.ok .null, st)⟩).2
      = [("s1", .obj [
          ("pivotalMoments", .arr [.obj [("id", .str "pm1"),
            ("choices", .arr [.obj [("id", .str "c1"), ("title", .str "Go")]])]]),
          ("choices", .arr [.obj [("pivotalMomentId", .str "pm1")]])])] :=
  c7_duplicate_decision_rejected ⟨some "s1", some "pm1", some "c1"⟩ _ "now"
    ⟨fun st => (.ok .null, st), fun st => (.ok .null, st)⟩ "s1" "pm1" "c1"
    (.obj [
      ("pivotalMoments", .arr [.obj [("id", .str "pm1"),
        ("choices", .arr [.obj [("id", .str "c1"), ("title", .str "Go")]])]]),
      ("choices", .arr [.obj [("pivotalMomentId", .str "pm1")]])])
    [.obj [("pivotalMomentId", .str "pm1")]]
    (.obj [("pivotalMomentId", .str "pm1")])
    rfl rfl rfl rfl rfl (List.mem_singleton.mpr rfl) rfl

/-! ## C9 -/

/-- Every pre-existing value met along the walk of `setNestedValue` is a
plain object (missing intermediates are created as objects); the final
container is a plain object as well. -/
def setPathOk : JValue → List String → Bool
  | _, [] => true
  | .obj _, [_] => true
  | .obj fields, k :: k' :: ks =>
      (match recordGet fields k with
       | none => setPathOk (.obj []) (k' :: ks)
       | some child => setPathOk child (k' :: ks))
  | _, _ => false

theorem splitDots_ne_nil (cs : List Char) : splitDots cs ≠ [] := by
  cases cs with
  | nil => simp [splitDots]
  | cons c rest =>
      simp only [splitDots]
      by_cases h : c = '.'
      · simp [h]
      · rw [if_neg h]
        cases splitDots rest <;> simp

theorem splitPath_ne_nil (path : String) : splitPath path ≠ [] := by
  unfold splitPath
  intro h
  exact splitDots_ne_nil path.toList (List.map_eq_nil_iff.mp h)

theorem getNestedGo_undef_of_ne_nil (ks : List String) (h : ks ≠ []) :
    getNestedGo ks .undefined = .undefined := by
  cases ks with
  | nil => exact absurd rfl h
  | cons k rest => rfl

theorem setNestedGo_roundtrip (v : JValue) :
    ∀ (keys : List String) (cur : JValue), keys ≠ [] → setPathOk cur keys = true →
      ∃ cur', setNestedGo cur keys v = .ok cur' ∧ isObj cur' = true ∧
        getNestedGo keys cur' = v := by
  intro keys
  induction keys with
  | nil => intro cur hne _; exact absurd rfl hne
  | cons k rest ih =>
      intro cur _ hok
      cases rest with
      | nil =>
          cases cur <;> simp [setPathOk] at hok
          case obj fields =>
            refine ⟨.obj (recordSet fields k v), rfl, rfl, ?_⟩
            simp [getNestedGo, isNullish, jIndex, recordGet_recordSet_self]
      | cons k' ks =>
          cases cur with
          | obj fields =>
              simp only [setPathOk] at hok
              cases hg : recordGet fields k with
              | none =>
                  rw [hg] at hok
                  obtain ⟨child', hset, hcobj, hget⟩ := ih (.obj []) (by simp) hok
                  refine ⟨.obj (recordSet fields k child'), ?_, rfl, ?_⟩
                  · simp [setNestedGo, hasProp, hg, hset, setProp]
                  · calc getNestedGo (k :: k' :: ks) (JValue.obj (recordSet fields k child'))
                        = getNestedGo (k' :: ks)
                            (jIndex (JValue.obj (recordSet fields k child')) k) := rfl
                      _ = getNestedGo (k' :: ks) child' := by
                            simp only [jIndex, recordGet_recordSet_self, Option.getD]
                      _ = v := hget
              | some child =>
                  rw [hg] at hok
                  obtain ⟨child', hset, hcobj, hget⟩ := ih child (by simp) hok
                  refine ⟨.obj (recordSet fields k child'), ?_, rfl, ?_⟩
                  · simp [setNestedGo, hasProp, hg, jIndex, hset, setProp]
                  · calc getNestedGo (k :: k' :: ks) (JValue.obj (recordSet fields k child'))
                        = getNestedGo (k' :: ks)
                            (jIndex (JValue.obj (recordSet fields k child')) k) := rfl
                      _ = getNestedGo (k' :: ks) child' := by
                            simp only [jIndex, recordGet_recordSet_self, Option.getD]
                      _ = v := hget
          | undefined => simp [setPathOk] at hok
          | null => simp [setPathOk] at hok
          | bool b => simp [setPathOk] at hok
          | num n => simp [setPathOk] at hok
          | str s => simp [setPathOk] at hok
          | arr xs => simp [setPathOk] at hok

/-- C9 counterexample: the set-then-get round trip does not hold for every
session object and dotted path.  When an intermediate path segment holds a
primitive — here `x = 0` with path `"x.y"` — `setNestedValue` throws a
strict-mode `TypeError` instead of storing the value (and `getNestedValue`
still reports the absent-marker). -/
theorem c9_roundtrip_counterexample :
    (setNestedValue (.obj [("x", .num 0)]) "x.y" (.num 7)).isOk = false ∧
    getNestedValue (.obj [("x", .num 0)]) "x.y" = .undefined :=
  ⟨rfl, rfl⟩

/-- C9 (amended): the `setNested`-then-`getNested` round trip holds whenever
every pre-existing value along the path is a plain object (absent
intermediates are created); when the walk meets a primitive the set throws a
strict-mode `TypeError`.  `getNested` itself is a total function — it never
throws — and returns the absent-marker `undefined` as soon as the first path
segment is unset on a multi-segment path. -/
theorem c9_roundtrip_amended :
    (∀ (o : JValue) (path : String) (v : JValue),
      setPathOk o (splitPath path) = true →
      ∃ o', setNestedValue o path v = .ok o' ∧ getNestedValue o' path = v) ∧
    (∀ (fields : List (String × JValue)) (path k : String) (ks : List String),
      splitPath path = k :: ks → ks ≠ [] → recordGet fields k = none →
      getNestedValue (.obj fields) path = .undefined) := by
  constructor
  · intro o path v h
    obtain ⟨o', h1, _, h2⟩ :=
      setNestedGo_roundtrip v (splitPath path) o (splitPath_ne_nil path) h
    exact ⟨o', h1, h2⟩
  · intro fields path k ks hsplit hne hg
    unfold getNestedValue
    rw [hsplit]
    simp only [getNestedGo, isNullish, jIndex, hg]
    exact getNestedGo_undef_of_ne_nil ks hne

/-- C9 witness: setting `"x.y.z"` on an empty document and reading it back
returns the stored value. -/
theorem c9_roundtrip_witness :
    ∃ o', setNestedValue (.obj []) "x.y.z" (.num 5) = .ok o' ∧
      getNestedValue o' "x.y.z" = .num 5 :=
  c9_roundtrip_amended.1 (.obj []) "x.y.z" (.num 5) rfl

/-! ## C10 -/

/-- C10: `metadata.totalSteps` counts execution-log entries.  A fresh
session starts with `totalSteps = 0` and an empty `executionLogs`; after
every successful `addExecutionLog` the session satisfies
`metadata.totalSteps = executionLogs.length`, because the mutator recomputes
the counter from the pushed array. -/
theorem c10_totalSteps_counts_logs :
    (∀ (sessionId : String) (input config : JValue) (nowIso : String),
      jIndex (jIndex (createEmptySession sessionId input config nowIso) "metadata")
          "totalSteps" = .num 0 ∧
      jIndex (createEmptySession sessionId input config nowIso) "executionLogs"
          = .arr []) ∧
    (∀ (s log s' : JValue), addExecutionLog s log = .ok s' →
      ∃ logs : List JValue, jIndex s' "executionLogs" = .arr logs ∧
        jIndex (jIndex s' "metadata") "totalSteps" = .num logs.length) := by
  constructor
  · intro sessionId input config nowIso
    exact ⟨rfl, rfl⟩
  · intro s log s' h
    cases s with
    | obj fields =>
        cases hE : recordGet fields "executionLogs" with
        | none => simp [addExecutionLog, hE] at h
        | some v =>
            cases v with
            | arr xs =>
                cases hM : recordGet (recordSet fields "executionLogs" (.arr (xs ++ [log])))
                    "metadata" with
                | none => simp [addExecutionLog, hE, hM] at h
                | some m =>
                    cases m with
                    | obj mf =>
                        have h2 : JValue.obj (recordSet
                            (recordSet fields "executionLogs" (.arr (xs ++ [log])))
                            "metadata"
                            (.obj (recordSet mf "totalSteps" (.num (xs ++ [log]).length))))
                            = s' := by
                          have h3 := h
                          simp only [addExecutionLog, hE, hM, Except.ok.injEq] at h3
                          exact h3
                        refine ⟨xs ++ [log], ?_, ?_⟩
                        · rw [← h2]
                          simp [jIndex,
                            recordGet_recordSet_ne _ "metadata" "executionLogs" _ (by decide),
                            recordGet_recordSet_self]
                        · rw [← h2]
                          simp [jIndex, recordGet_recordSet_self]
                    | undefined => simp [addExecutionLog, hE, hM] at h
                    | null => simp [addExecutionLog, hE, hM] at h
                    | bool b => simp [addExecutionLog, hE, hM] at h
                    | num n => simp [addExecutionLog, hE, hM] at h
                    | str s2 => simp [addExecutionLog, hE, hM] at h
                    | arr ys => simp [addExecutionLog, hE, hM] at h
            | undefined => simp [addExecutionLog, hE] at h
            | null => simp [addExecutionLog, hE] at h
            | bool b => simp [addExecutionLog, hE] at h
            | num n => simp [addExecutionLog, hE] at h
            | str s2 => simp [addExecutionLog, hE] at h
            | obj f2 => simp [addExecutionLog, hE] at h
    | undefined => simp [addExecutionLog] at h
    | null => simp [addExecutionLog] at h
    | bool b => simp [addExecutionLog] at h
    | num n => simp [addExecutionLog] at h
    | str st => simp [addExecutionLog] at h
    | arr xs => simp [addExecutionLog] at h

/-- C10 witness: appending one log entry to a fresh-shaped session leaves
`totalSteps = 1 = executionLogs.length`. -/
theorem c10_totalSteps_witness :
    addExecutionLog (.obj [("executionLogs", .arr []), ("metadata", .obj [])]) (.str "l")
        = .ok (.obj [("executionLogs", .arr [.str "l"]),
                     ("metadata", .obj [("totalSteps", .num 1)])]) ∧
    ∃ logs : List JValue,
      jIndex (.obj [("executionLogs", .arr [.str "l"]),
                    ("metadata", .obj [("totalSteps", .num 1)])]) "executionLogs"
          = .arr logs ∧
      jIndex (jIndex (.obj [("executionLogs", .arr [.str "l"]),
                            ("metadata", .obj [("totalSteps", .num 1)])]) "metadata")
          "totalSteps" = .num logs.length :=
  ⟨rfl, c10_totalSteps_counts_logs.2
    (.obj [("executionLogs", .arr []), ("metadata", .obj [])]) (.str "l")
    (.obj [("executionLogs", .arr [.str "l"]),
           ("metadata", .obj [("totalSteps", .num 1)])]) rfl⟩

end Timetravel
